import Mathlib

/-!
Verification of the expense-manager application's aggregation and
view-model logic.

The program keeps a flat list of financial entries (each an expense,
"gasto", or an income, "ingreso") and derives from it global totals,
per-category totals, per-date totals, a month calendar grid and a few
analytics ratios.  This file embeds those computations shallowly:

* JavaScript numbers (entry amounts) are modelled as exact rationals `ℚ`;
  the embedding treats arithmetic as exact.
* JavaScript plain objects used as string-keyed dictionaries (the
  category- and date-total accumulators) are modelled as association
  lists in insertion order — JS objects enumerate string keys in
  insertion order, which matches.
* Calendar dates handed to the grid computation are modelled as integer
  epoch-day indices; weekday arithmetic becomes arithmetic modulo 7.

Each definition mirrors one function of the source (`totals`,
`categoryTotals`, `dailyTotals`, `calendarDays`, `getDayColor`,
`addEntry`, `deleteEntry`, and the analytics ratio displays).
-/

/-- The entry discriminator: `type: "gasto" | "ingreso"` in the source. -/
inductive EntryType where
  | gasto
  | ingreso
deriving DecidableEq, Repr

/-- The `Entry` interface of the source: id, type, category, amount,
date (a `yyyy-MM-dd` string) and optional description.  The `amount`
field (a JS number) is modelled as an exact rational. -/
structure Entry where
  id : String
  type : EntryType
  category : String
  amount : ℚ
  date : String
  description : Option String
deriving DecidableEq, Repr

/-- Result record of the dashboard `totals` memo. -/
structure Totals where
  gastos : ℚ
  ingresos : ℚ
  balance : ℚ
deriving DecidableEq, Repr

/-- The dashboard `totals` memo:
`gastos`/`ingresos` filter the entry list by type and reduce with
`(sum, e) => sum + e.amount` from `0`; `balance = ingresos - gastos`. -/
def totals (entries : List Entry) : Totals :=
  let gastos :=
    (entries.filter (fun e => decide (e.type = EntryType.gasto))).foldl
      (fun sum e => sum + e.amount) 0
  let ingresos :=
    (entries.filter (fun e => decide (e.type = EntryType.ingreso))).foldl
      (fun sum e => sum + e.amount) 0
  { gastos := gastos, ingresos := ingresos, balance := ingresos - gastos }

/-- Sum of the amounts of the expense entries of a list (specification
shorthand used to state the claims; not a function of the source). -/
def gastoSum (entries : List Entry) : ℚ :=
  ((entries.filter (fun e => decide (e.type = EntryType.gasto))).map Entry.amount).sum

/-- Sum of the amounts of the income entries of a list (specification
shorthand used to state the claims; not a function of the source). -/
def ingresoSum (entries : List Entry) : ℚ :=
  ((entries.filter (fun e => decide (e.type = EntryType.ingreso))).map Entry.amount).sum

theorem foldl_add_amount (l : List Entry) (c : ℚ) :
    l.foldl (fun sum e => sum + e.amount) c = c + (l.map Entry.amount).sum := by
  induction l generalizing c with
  | nil => simp
  | cons e t ih => simp [List.foldl_cons, ih, add_assoc]

theorem totals_gastos (entries : List Entry) :
    (totals entries).gastos = gastoSum entries := by
  simp [totals, gastoSum, foldl_add_amount]

theorem totals_ingresos (entries : List Entry) :
    (totals entries).ingresos = ingresoSum entries := by
  simp [totals, ingresoSum, foldl_add_amount]

/-- C1: For every entry list, the global totals computed by the dashboard
satisfy `balance = income_total − expense_total` exactly, where
`income_total` is the sum of the amounts of the income entries and
`expense_total` is the sum of the amounts of the expense entries. -/
theorem totals_balance_eq (entries : List Entry) :
    (totals entries).ingresos = ingresoSum entries ∧
    (totals entries).gastos = gastoSum entries ∧
    (totals entries).balance = ingresoSum entries - gastoSum entries := by
  refine ⟨totals_ingresos entries, totals_gastos entries, ?_⟩
  rw [show (totals entries).balance
        = (totals entries).ingresos - (totals entries).gastos from rfl,
      totals_ingresos, totals_gastos]

/-! ## Entry creation and deletion -/

/-- The `newEntry` form state of the dashboard: all fields except the
type are text-input strings. -/
structure NewEntryForm where
  type : EntryType
  category : String
  amount : String
  date : String
  description : String
deriving DecidableEq, Repr

/-- The dashboard `addEntry` handler.  It returns the new entry list and
the new form state.  `parseFloat` stands for `Number.parseFloat` (its
value is irrelevant to the claims), `nowId` for `Date.now().toString()`
and `today` for `format(new Date(), "yyyy-MM-dd")`.  The guard
`if (!newEntry.category || !newEntry.amount) return` fires exactly when
one of the two strings is empty (the only falsy string). -/
def addEntry (parseFloat : String → ℚ) (nowId today : String)
    (entries : List Entry) (form : NewEntryForm) : List Entry × NewEntryForm :=
  if form.category = "" ∨ form.amount = "" then (entries, form)
  else
    (entries ++
      [{ id := nowId, type := form.type, category := form.category,
         amount := parseFloat form.amount, date := form.date,
         description := some form.description }],
     { type := EntryType.gasto, category := "", amount := "",
       date := today, description := "" })

/-- The dashboard `deleteEntry` handler:
`entries.filter((entry) => entry.id !== id)`. -/
def deleteEntry (entries : List Entry) (id : String) : List Entry :=
  entries.filter (fun e => decide (e.id ≠ id))

/-- C7: if the category field or the amount field of the form is empty,
`addEntry` is a no-op: the entry list (and the form) are unchanged. -/
theorem addEntry_empty_noop (parseFloat : String → ℚ) (nowId today : String)
    (entries : List Entry) (form : NewEntryForm)
    (h : form.category = "" ∨ form.amount = "") :
    addEntry parseFloat nowId today entries form = (entries, form) := by
  simp [addEntry, h]

/-- C7 witness: the no-op at a concrete empty-category form. -/
theorem addEntry_empty_noop_witness :
    addEntry (fun _ => 0) "1700000000000" "2024-01-05" []
        { type := EntryType.gasto, category := "", amount := "5",
          date := "2024-01-05", description := "" } =
      ([], { type := EntryType.gasto, category := "", amount := "5",
             date := "2024-01-05", description := "" }) :=
  addEntry_empty_noop (fun _ => 0) "1700000000000" "2024-01-05" [] _ (Or.inl rfl)

/-- C9: on a valid form (category and amount non-empty), `addEntry`
appends the created entry at the end: the first `entries.length`
elements of the result are the old list unchanged, the length grows by
one, and the last element is the created entry. -/
theorem addEntry_appends (parseFloat : String → ℚ) (nowId today : String)
    (entries : List Entry) (form : NewEntryForm)
    (hc : form.category ≠ "") (ha : form.amount ≠ "") :
    (addEntry parseFloat nowId today entries form).1.length = entries.length + 1 ∧
    (addEntry parseFloat nowId today entries form).1.take entries.length = entries ∧
    (addEntry parseFloat nowId today entries form).1.drop entries.length =
      [{ id := nowId, type := form.type, category := form.category,
         amount := parseFloat form.amount, date := form.date,
         description := some form.description }] := by
  have hne : ¬(form.category = "" ∨ form.amount = "") := by
    rintro (h | h) <;> [exact hc h; exact ha h]
  refine ⟨?_, ?_, ?_⟩ <;>
    simp [addEntry, hne, List.take_append_of_le_length, List.drop_append_of_le_length]

/-- C9 witness: appending at a concrete input. -/
theorem addEntry_appends_witness :
    (addEntry (fun _ => 5) "1700000000000" "2024-01-06"
        [{ id := "1", type := EntryType.ingreso, category := "Ventas",
           amount := 200, date := "2024-01-05", description := none }]
        { type := EntryType.gasto, category := "Carne", amount := "5",
          date := "2024-01-06", description := "" }).1.length = 2 :=
  (addEntry_appends (fun _ => 5) "1700000000000" "2024-01-06" _ _
    (by decide) (by decide)).1

/-- Two distinct entries sharing the id `"1"` (`Date.now()` ids can
collide within one millisecond). -/
def dupA : Entry :=
  { id := "1", type := EntryType.gasto, category := "Carne",
    amount := 5, date := "2024-01-05", description := none }

/-- Second entry with the same id as `dupA`. -/
def dupB : Entry :=
  { id := "1", type := EntryType.ingreso, category := "Ventas",
    amount := 7, date := "2024-01-05", description := none }

/-- C2 counterexample: on a list with two entries sharing an id, delete
removes both, not exactly one — the resulting length is 0, not 1. -/
theorem deleteEntry_removes_all_matching :
    deleteEntry [dupA, dupB] "1" = [] ∧
    (deleteEntry [dupA, dupB] "1").length ≠ ([dupA, dupB] : List Entry).length - 1 := by
  constructor
  · rfl
  · decide

theorem deleteEntry_length_of_nodup (entries : List Entry) (id : String)
    (hnd : (entries.map Entry.id).Nodup) (e : Entry) (he : e ∈ entries)
    (hid : e.id = id) :
    (deleteEntry entries id).length + 1 = entries.length := by
  induction entries with
  | nil => cases he
  | cons a t ih =>
    rw [List.map_cons, List.nodup_cons] at hnd
    rcases List.mem_cons.mp he with rfl | hmem
    · have hall : t.filter (fun b => decide (b.id ≠ id)) = t := by
        rw [List.filter_eq_self]
        intro b hb
        simp only [decide_eq_true_eq, ne_eq]
        intro hbid
        apply hnd.1
        rw [hid, ← hbid]
        exact List.mem_map_of_mem Entry.id hb
      simp only [deleteEntry]
      rw [List.filter_cons, if_neg (by simp [hid]), hall]
      simp
    · have hane : a.id ≠ id := by
        intro hae
        apply hnd.1
        rw [hae, ← hid]
        exact List.mem_map_of_mem Entry.id hmem
      have hrec := ih hnd.2 hmem
      simp only [deleteEntry] at hrec ⊢
      rw [List.filter_cons, if_pos (by simp [hane])]
      simp only [List.length_cons]
      omega

/-- Entry with id `"a1"`, used in witnesses. -/
def entA : Entry :=
  { id := "a1", type := EntryType.gasto, category := "Gas",
    amount := 30, date := "2024-01-06", description := none }

/-- Entry with id `"b1"`, used in witnesses. -/
def entB : Entry :=
  { id := "b1", type := EntryType.ingreso, category := "Efectivo",
    amount := 12, date := "2024-01-07", description := none }

/-- C2 (amended): `deleteEntry` removes every entry whose id matches
(several, if ids collide) and keeps the rest unchanged in value and
order; deleting an absent id is a no-op; and when the ids of the list
are pairwise distinct, deleting a present id removes exactly one
entry. -/
theorem deleteEntry_spec (entries : List Entry) (id : String) :
    List.Sublist (deleteEntry entries id) entries ∧
    (∀ e, e ∈ deleteEntry entries id ↔ e ∈ entries ∧ e.id ≠ id) ∧
    ((∀ e ∈ entries, e.id ≠ id) → deleteEntry entries id = entries) ∧
    ((entries.map Entry.id).Nodup → ∀ e ∈ entries, e.id = id →
      (deleteEntry entries id).length + 1 = entries.length) := by
  refine ⟨List.filter_sublist _, ?_, ?_, ?_⟩
  · intro e
    simp [deleteEntry, List.mem_filter]
  · intro hall
    rw [deleteEntry, List.filter_eq_self]
    intro b hb
    simpa using hall b hb
  · intro hnd e he hid
    exact deleteEntry_length_of_nodup entries id hnd e he hid

/-- C2 witness: at concrete inputs, deleting an absent id is a no-op,
and deleting a present id among distinct ids removes exactly one
entry. -/
theorem deleteEntry_spec_witness :
    deleteEntry [entA, entB] "zzz" = [entA, entB] ∧
    (deleteEntry [entA, entB] "b1").length + 1 = ([entA, entB] : List Entry).length := by
  constructor
  · exact (deleteEntry_spec [entA, entB] "zzz").2.2.1 (by decide)
  · exact (deleteEntry_spec [entA, entB] "b1").2.2.2 (by decide) entB (by decide) rfl

/-! ## Per-category totals -/

/-- A JS object used as a `category → number` dictionary, modelled as an
insertion-ordered association list (JS objects enumerate string keys in
insertion order). -/
abbrev CategoryTotals := List (String × ℚ)

/-- Models `obj[key] = (obj[key] || 0) + amount`: add to the value of an
existing key, else append the new key at the end. -/
def bumpCategory (m : CategoryTotals) (key : String) (amount : ℚ) : CategoryTotals :=
  match m with
  | [] => [(key, amount)]
  | (k, v) :: rest =>
    if k = key then (k, v + amount) :: rest
    else (k, v) :: bumpCategory rest key amount

/-- One step of the `categoryTotals` forEach loop: route the entry's
amount into the expense or the income dictionary by its type. -/
def categoryStep (acc : CategoryTotals × CategoryTotals) (entry : Entry) :
    CategoryTotals × CategoryTotals :=
  if entry.type = EntryType.gasto then
    (bumpCategory acc.1 entry.category entry.amount, acc.2)
  else
    (acc.1, bumpCategory acc.2 entry.category entry.amount)

/-- The dashboard `categoryTotals` memo: a single pass over the entries
accumulating the pair `(gastoTotals, ingresoTotals)`. -/
def categoryTotals (entries : List Entry) : CategoryTotals × CategoryTotals :=
  entries.foldl categoryStep ([], [])

/-- Sum of the values of a dictionary. -/
def sumValues (m : CategoryTotals) : ℚ := (m.map Prod.snd).sum

theorem sumValues_bumpCategory (m : CategoryTotals) (key : String) (amount : ℚ) :
    sumValues (bumpCategory m key amount) = sumValues m + amount := by
  induction m with
  | nil => simp [bumpCategory, sumValues]
  | cons p rest ih =>
    obtain ⟨k, v⟩ := p
    by_cases h : k = key
    · simp only [bumpCategory, h, if_pos, sumValues, List.map_cons, List.sum_cons]
      ring
    · simp only [bumpCategory, h, if_neg, sumValues, List.map_cons, List.sum_cons,
        not_false_iff] at ih ⊢
      rw [ih]
      ring

theorem gastoSum_cons (e : Entry) (t : List Entry) :
    gastoSum (e :: t) =
      (if e.type = EntryType.gasto then e.amount else 0) + gastoSum t := by
  cases h : e.type <;> simp [gastoSum, List.filter_cons, h]

theorem ingresoSum_cons (e : Entry) (t : List Entry) :
    ingresoSum (e :: t) =
      (if e.type = EntryType.ingreso then e.amount else 0) + ingresoSum t := by
  cases h : e.type <;> simp [ingresoSum, List.filter_cons, h]

theorem categoryTotals_foldl (entries : List Entry)
    (acc : CategoryTotals × CategoryTotals) :
    sumValues (entries.foldl categoryStep acc).1 = sumValues acc.1 + gastoSum entries ∧
    sumValues (entries.foldl categoryStep acc).2 = sumValues acc.2 + ingresoSum entries := by
  induction entries generalizing acc with
  | nil => simp [gastoSum, ingresoSum]
  | cons e t ih =>
    rw [List.foldl_cons]
    obtain ⟨ih1, ih2⟩ := ih (categoryStep acc e)
    refine ⟨?_, ?_⟩
    · rw [ih1, gastoSum_cons]
      cases h : e.type <;> simp [categoryStep, h, sumValues_bumpCategory] <;> ring
    · rw [ih2, ingresoSum_cons]
      cases h : e.type <;> simp [categoryStep, h, sumValues_bumpCategory] <;> ring

/-- C3: for each kind, the sum of the values of the dictionary produced
by `categoryTotals` equals that kind's total in `totals`. -/
theorem categoryTotals_sum_eq_totals (entries : List Entry) :
    sumValues (categoryTotals entries).1 = (totals entries).gastos ∧
    sumValues (categoryTotals entries).2 = (totals entries).ingresos := by
  obtain ⟨h1, h2⟩ := categoryTotals_foldl entries ([], [])
  constructor
  · rw [categoryTotals, h1, totals_gastos]
    simp [sumValues]
  · rw [categoryTotals, h2, totals_ingresos]
    simp [sumValues]

/-! ## Per-date totals -/

/-- A day's record in the calendar page `dailyTotals` dictionary:
income sum, expense sum and the day's entry list. -/
structure DayData where
  ingresos : ℚ
  gastos : ℚ
  entries : List Entry
deriving DecidableEq, Repr

/-- One entry folded into a day's record: push it onto the day's entry
list and add its amount to the matching sum. -/
def dayAdd (d : DayData) (e : Entry) : DayData :=
  if e.type = EntryType.ingreso then
    { d with entries := d.entries ++ [e], ingresos := d.ingresos + e.amount }
  else
    { d with entries := d.entries ++ [e], gastos := d.gastos + e.amount }

/-- The `totalsByDate[dateStr]` update of the calendar page: create
`{ingresos: 0, gastos: 0, entries: []}` if the key is absent (appending
the key in insertion order), then fold the entry in. -/
def bumpDay (m : List (String × DayData)) (key : String) (e : Entry) :
    List (String × DayData) :=
  match m with
  | [] => [(key, dayAdd ⟨0, 0, []⟩ e)]
  | (k, v) :: rest =>
    if k = key then (k, dayAdd v e) :: rest
    else (k, v) :: bumpDay rest key e

/-- The calendar page `dailyTotals` memo: a single pass grouping the
entries by their exact date string. -/
def dailyTotals (entries : List Entry) : List (String × DayData) :=
  entries.foldl (fun acc e => bumpDay acc e.date e) []

/-- JS object property read `totalsByDate[dateStr]`: the value at a
key, if present. -/
def lookupDay (m : List (String × DayData)) (key : String) : Option DayData :=
  match m with
  | [] => none
  | (k, v) :: rest => if k = key then some v else lookupDay rest key

/-- The `totalsByDate[dateStr]` update of the dashboard `dailyTotals`
memo, whose day records are just `(ingresos, gastos)` pairs. -/
def bumpDayDash (m : List (String × (ℚ × ℚ))) (key : String) (e : Entry) :
    List (String × (ℚ × ℚ)) :=
  match m with
  | [] =>
    [(key, if e.type = EntryType.ingreso then (e.amount, 0) else (0, e.amount))]
  | (k, v) :: rest =>
    if k = key then
      (k, if e.type = EntryType.ingreso then (v.1 + e.amount, v.2)
          else (v.1, v.2 + e.amount)) :: rest
    else (k, v) :: bumpDayDash rest key e

/-- The dashboard `dailyTotals` memo: same grouping as the calendar
page, keeping only the two sums per day. -/
def dailyTotalsDash (entries : List Entry) : List (String × (ℚ × ℚ)) :=
  entries.foldl (fun acc e => bumpDayDash acc e.date e) []

/-- Sum of the per-day income sums of a calendar-page dictionary. -/
def sumIngD (m : List (String × DayData)) : ℚ :=
  (m.map (fun p => p.2.ingresos)).sum

/-- Sum of the per-day expense sums of a calendar-page dictionary. -/
def sumGasD (m : List (String × DayData)) : ℚ :=
  (m.map (fun p => p.2.gastos)).sum

theorem dayAdd_ingresos (d : DayData) (e : Entry) :
    (dayAdd d e).ingresos =
      d.ingresos + (if e.type = EntryType.ingreso then e.amount else 0) := by
  cases h : e.type <;> simp [dayAdd, h]

theorem dayAdd_gastos (d : DayData) (e : Entry) :
    (dayAdd d e).gastos =
      d.gastos + (if e.type = EntryType.ingreso then 0 else e.amount) := by
  cases h : e.type <;> simp [dayAdd, h]

theorem dayAdd_entries (d : DayData) (e : Entry) :
    (dayAdd d e).entries = d.entries ++ [e] := by
  cases h : e.type <;> simp [dayAdd, h]

theorem sumIngD_bumpDay (m : List (String × DayData)) (key : String) (e : Entry) :
    sumIngD (bumpDay m key e) =
      sumIngD m + (if e.type = EntryType.ingreso then e.amount else 0) := by
  induction m with
  | nil => simp [bumpDay, sumIngD, dayAdd_ingresos]
  | cons p rest ih =>
    obtain ⟨k, v⟩ := p
    by_cases h : k = key
    · simp only [bumpDay, h, if_pos, sumIngD, List.map_cons, List.sum_cons,
        dayAdd_ingresos]
      ring
    · simp only [bumpDay, h, if_neg, not_false_iff, sumIngD, List.map_cons,
        List.sum_cons] at ih ⊢
      rw [ih]
      ring

theorem sumGasD_bumpDay (m : List (String × DayData)) (key : String) (e : Entry) :
    sumGasD (bumpDay m key e) =
      sumGasD m + (if e.type = EntryType.ingreso then 0 else e.amount) := by
  induction m with
  | nil => simp [bumpDay, sumGasD, dayAdd_gastos]
  | cons p rest ih =>
    obtain ⟨k, v⟩ := p
    by_cases h : k = key
    · simp only [bumpDay, h, if_pos, sumGasD, List.map_cons, List.sum_cons,
        dayAdd_gastos]
      ring
    · simp only [bumpDay, h, if_neg, not_false_iff, sumGasD, List.map_cons,
        List.sum_cons] at ih ⊢
      rw [ih]
      ring

theorem dailyTotals_foldl_sums (entries : List Entry)
    (acc : List (String × DayData)) :
    sumIngD (entries.foldl (fun acc e => bumpDay acc e.date e) acc) =
      sumIngD acc + ingresoSum entries ∧
    sumGasD (entries.foldl (fun acc e => bumpDay acc e.date e) acc) =
      sumGasD acc + gastoSum entries := by
  induction entries generalizing acc with
  | nil => simp [ingresoSum, gastoSum]
  | cons e t ih =>
    rw [List.foldl_cons]
    obtain ⟨ih1, ih2⟩ := ih (bumpDay acc e.date e)
    refine ⟨?_, ?_⟩
    · rw [ih1, ingresoSum_cons, sumIngD_bumpDay]
      ring
    · rw [ih2, gastoSum_cons, sumGasD_bumpDay]
      cases h : e.type <;> simp [h] <;> ring

/-- Sum of the per-day income sums of the dashboard dictionary. -/
def sumIngDash (m : List (String × (ℚ × ℚ))) : ℚ :=
  (m.map (fun p => p.2.1)).sum

/-- Sum of the per-day expense sums of the dashboard dictionary. -/
def sumGasDash (m : List (String × (ℚ × ℚ))) : ℚ :=
  (m.map (fun p => p.2.2)).sum

theorem sumIngDash_bumpDayDash (m : List (String × (ℚ × ℚ))) (key : String)
    (e : Entry) :
    sumIngDash (bumpDayDash m key e) =
      sumIngDash m + (if e.type = EntryType.ingreso then e.amount else 0) := by
  induction m with
  | nil => cases h : e.type <;> simp [bumpDayDash, sumIngDash, h]
  | cons p rest ih =>
    obtain ⟨k, v⟩ := p
    by_cases h : k = key
    · cases ht : e.type <;>
        simp [bumpDayDash, h, ht, sumIngDash] <;> ring
    · simp only [bumpDayDash, h, if_neg, not_false_iff, sumIngDash,
        List.map_cons, List.sum_cons] at ih ⊢
      rw [ih]
      ring

theorem sumGasDash_bumpDayDash (m : List (String × (ℚ × ℚ))) (key : String)
    (e : Entry) :
    sumGasDash (bumpDayDash m key e) =
      sumGasDash m + (if e.type = EntryType.ingreso then 0 else e.amount) := by
  induction m with
  | nil => cases h : e.type <;> simp [bumpDayDash, sumGasDash, h]
  | cons p rest ih =>
    obtain ⟨k, v⟩ := p
    by_cases h : k = key
    · cases ht : e.type <;>
        simp [bumpDayDash, h, ht, sumGasDash] <;> ring
    · simp only [bumpDayDash, h, if_neg, not_false_iff, sumGasDash,
        List.map_cons, List.sum_cons] at ih ⊢
      rw [ih]
      ring

theorem dailyTotalsDash_foldl_sums (entries : List Entry)
    (acc : List (String × (ℚ × ℚ))) :
    sumIngDash (entries.foldl (fun acc e => bumpDayDash acc e.date e) acc) =
      sumIngDash acc + ingresoSum entries ∧
    sumGasDash (entries.foldl (fun acc e => bumpDayDash acc e.date e) acc) =
      sumGasDash acc + gastoSum entries := by
  induction entries generalizing acc with
  | nil => simp [ingresoSum, gastoSum]
  | cons e t ih =>
    rw [List.foldl_cons]
    obtain ⟨ih1, ih2⟩ := ih (bumpDayDash acc e.date e)
    refine ⟨?_, ?_⟩
    · rw [ih1, ingresoSum_cons, sumIngDash_bumpDayDash]
      ring
    · rw [ih2, gastoSum_cons, sumGasDash_bumpDayDash]
      cases h : e.type <;> simp [h] <;> ring

/-- C4: the sum of the per-date income sums over all keys of the
per-date dictionaries (both the calendar page's and the dashboard's)
equals the global income total, and likewise for the expense sums. -/
theorem dailyTotals_sum_eq_totals (entries : List Entry) :
    sumIngD (dailyTotals entries) = (totals entries).ingresos ∧
    sumGasD (dailyTotals entries) = (totals entries).gastos ∧
    sumIngDash (dailyTotalsDash entries) = (totals entries).ingresos ∧
    sumGasDash (dailyTotalsDash entries) = (totals entries).gastos := by
  obtain ⟨h1, h2⟩ := dailyTotals_foldl_sums entries []
  obtain ⟨h3, h4⟩ := dailyTotalsDash_foldl_sums entries []
  rw [totals_ingresos, totals_gastos, dailyTotals, dailyTotalsDash,
    h1, h2, h3, h4]
  simp [sumIngD, sumGasD, sumIngDash, sumGasDash]

theorem ingresoSum_append (l1 l2 : List Entry) :
    ingresoSum (l1 ++ l2) = ingresoSum l1 + ingresoSum l2 := by
  simp [ingresoSum, List.filter_append]

theorem gastoSum_append (l1 l2 : List Entry) :
    gastoSum (l1 ++ l2) = gastoSum l1 + gastoSum l2 := by
  simp [gastoSum, List.filter_append]

theorem ingresoSum_singleton (e : Entry) :
    ingresoSum [e] = if e.type = EntryType.ingreso then e.amount else 0 := by
  cases h : e.type <;> simp [ingresoSum, h]

theorem gastoSum_singleton (e : Entry) :
    gastoSum [e] = if e.type = EntryType.gasto then e.amount else 0 := by
  cases h : e.type <;> simp [gastoSum, h]

theorem dailyTotals_concat (l : List Entry) (e : Entry) :
    dailyTotals (l ++ [e]) = bumpDay (dailyTotals l) e.date e := by
  simp [dailyTotals, List.foldl_append]

theorem lookupDay_bumpDay_self (m : List (String × DayData)) (key : String)
    (e : Entry) :
    lookupDay (bumpDay m key e) key =
      some (dayAdd ((lookupDay m key).getD ⟨0, 0, []⟩) e) := by
  induction m with
  | nil => simp [bumpDay, lookupDay]
  | cons p rest ih =>
    obtain ⟨k, v⟩ := p
    by_cases h : k = key
    · simp [bumpDay, lookupDay, h]
    · simp [bumpDay, lookupDay, h, ih]

theorem lookupDay_bumpDay_ne (m : List (String × DayData)) (key d : String)
    (e : Entry) (h : d ≠ key) :
    lookupDay (bumpDay m key e) d = lookupDay m d := by
  have h' : key ≠ d := fun hh => h hh.symm
  induction m with
  | nil => simp [bumpDay, lookupDay, h']
  | cons p rest ih =>
    obtain ⟨k, v⟩ := p
    by_cases h1 : k = key
    · subst h1
      simp [bumpDay, lookupDay, h']
    · by_cases h2 : k = d <;> simp [bumpDay, lookupDay, h1, h2, ih, h]

theorem keys_bumpDay (m : List (String × DayData)) (key : String) (e : Entry) :
    (bumpDay m key e).map Prod.fst =
      if key ∈ m.map Prod.fst then m.map Prod.fst
      else m.map Prod.fst ++ [key] := by
  induction m with
  | nil => simp [bumpDay]
  | cons p rest ih =>
    obtain ⟨k, v⟩ := p
    by_cases h : k = key
    · simp [bumpDay, h]
    · have h' : key ≠ k := fun hh => h hh.symm
      by_cases hm : key ∈ rest.map Prod.fst <;>
        simp [bumpDay, h, h', hm, ih]

theorem keys_nodup_bumpDay (m : List (String × DayData)) (key : String)
    (e : Entry) (hnd : (m.map Prod.fst).Nodup) :
    ((bumpDay m key e).map Prod.fst).Nodup := by
  rw [keys_bumpDay]
  by_cases hm : key ∈ m.map Prod.fst
  · simpa [hm] using hnd
  · simp [hm, List.nodup_append, hnd]

theorem dailyTotals_keys_nodup (entries : List Entry) :
    ((dailyTotals entries).map Prod.fst).Nodup := by
  induction entries using List.reverseRecOn with
  | nil => simp [dailyTotals]
  | append_singleton l e ih =>
    rw [dailyTotals_concat]
    exact keys_nodup_bumpDay _ _ _ ih

theorem dailyTotals_lookup_eq (entries : List Entry) (d : String) :
    lookupDay (dailyTotals entries) d =
      if (entries.filter (fun e => decide (e.date = d))).isEmpty then none
      else
        some { ingresos := ingresoSum (entries.filter (fun e => decide (e.date = d))),
               gastos := gastoSum (entries.filter (fun e => decide (e.date = d))),
               entries := entries.filter (fun e => decide (e.date = d)) } := by
  induction entries using List.reverseRecOn with
  | nil => simp [dailyTotals, lookupDay]
  | append_singleton l e ih =>
    rw [dailyTotals_concat]
    by_cases hd : d = e.date
    · subst hd
      rw [lookupDay_bumpDay_self, ih]
      have hfe : [e].filter (fun x => decide (x.date = e.date)) = [e] := by simp
      by_cases h0 : (l.filter (fun x => decide (x.date = e.date))).isEmpty
      · have h0' : l.filter (fun x => decide (x.date = e.date)) = [] :=
          List.isEmpty_iff.mp h0
        simp only [h0, if_true, Option.getD_none, List.filter_append, h0',
          hfe, List.nil_append]
        cases ht : e.type <;>
          simp [dayAdd, ht, ingresoSum, gastoSum]
      · have h0' : l.filter (fun x => decide (x.date = e.date)) ≠ [] := by
          simpa [List.isEmpty_iff] using h0
        simp only [h0, if_false, Option.getD_some, List.filter_append, hfe]
        rw [if_neg (by simp [h0'])]
        cases ht : e.type <;>
          simp [dayAdd, ht, ingresoSum_append, gastoSum_append,
            ingresoSum_singleton, gastoSum_singleton]
    · have hd' : e.date ≠ d := fun hh => hd hh.symm
      rw [lookupDay_bumpDay_ne _ _ _ _ hd, ih]
      simp [List.filter_append, hd']

/-- C10: `dailyTotals` partitions the entries by date: the dictionary's
keys are pairwise distinct, and the record stored at a date key exists
exactly when some entry has that date, in which case it holds precisely
the entries with that date in their original relative order, together
with their income and expense sums.  (So each entry lands in exactly
one bucket, the one keyed by its own date.) -/
theorem dailyTotals_partition (entries : List Entry) :
    ((dailyTotals entries).map Prod.fst).Nodup ∧
    ∀ d : String,
      lookupDay (dailyTotals entries) d =
        if (entries.filter (fun e => decide (e.date = d))).isEmpty then none
        else
          some { ingresos := ingresoSum (entries.filter (fun e => decide (e.date = d))),
                 gastos := gastoSum (entries.filter (fun e => decide (e.date = d))),
                 entries := entries.filter (fun e => decide (e.date = d)) } :=
  ⟨dailyTotals_keys_nodup entries, fun d => dailyTotals_lookup_eq entries d⟩

/-! ## Day colouring -/

/-- The calendar page `getDayColor`: look the formatted date up in the
`dailyTotals` dictionary; no record yields white, otherwise the colour
follows the sign of `ingresos - gastos`. -/
def getDayColor (dailyT : List (String × DayData)) (dateStr : String) : String :=
  match lookupDay dailyT dateStr with
  | none => "bg-white"
  | some dayData =>
    let balance := dayData.ingresos - dayData.gastos
    if balance > 0 then "bg-green-50 border-green-200"
    else if balance < 0 then "bg-red-50 border-red-200"
    else "bg-yellow-50 border-yellow-200"

/-- Net balance of one day computed directly from the entry list
(specification shorthand): income sum minus expense sum over the
entries carrying that date. -/
def netBalanceOn (entries : List Entry) (d : String) : ℚ :=
  ingresoSum (entries.filter (fun e => decide (e.date = d))) -
    gastoSum (entries.filter (fun e => decide (e.date = d)))

theorem gasto_ne_ingreso : ¬(EntryType.gasto = EntryType.ingreso) :=
  fun h => nomatch h

theorem ingreso_ne_gasto : ¬(EntryType.ingreso = EntryType.gasto) :=
  fun h => nomatch h

/-- Income entry of 5 on 2024-01-05 (C6 counterexample input). -/
def ceI : Entry :=
  { id := "10", type := EntryType.ingreso, category := "Ventas",
    amount := 5, date := "2024-01-05", description := none }

/-- Expense entry of 5 on 2024-01-05 (C6 counterexample input). -/
def ceG : Entry :=
  { id := "11", type := EntryType.gasto, category := "Carne",
    amount := 5, date := "2024-01-05", description := none }

/-- C6 counterexample: two entry lists give 2024-01-05 the same (zero)
net balance yet different visual states — the day is white when it has
no entries but yellow when balanced entries exist — so the cell state
is not determined by the sign of the net balance alone. -/
theorem getDayColor_not_sign_determined :
    netBalanceOn [] "2024-01-05" = 0 ∧
    netBalanceOn [ceI, ceG] "2024-01-05" = 0 ∧
    getDayColor (dailyTotals []) "2024-01-05" = "bg-white" ∧
    getDayColor (dailyTotals [ceI, ceG]) "2024-01-05" =
      "bg-yellow-50 border-yellow-200" ∧
    getDayColor (dailyTotals []) "2024-01-05" ≠
      getDayColor (dailyTotals [ceI, ceG]) "2024-01-05" := by
  have h1 : netBalanceOn [] "2024-01-05" = 0 := by
    norm_num [netBalanceOn, ingresoSum, gastoSum]
  have h2 : netBalanceOn [ceI, ceG] "2024-01-05" = 0 := by
    simp [netBalanceOn, ingresoSum, gastoSum, ceI, ceG, List.filter_cons,
      gasto_ne_ingreso, ingreso_ne_gasto]
  have h3 : getDayColor (dailyTotals []) "2024-01-05" = "bg-white" := rfl
  have h4 : getDayColor (dailyTotals [ceI, ceG]) "2024-01-05" =
      "bg-yellow-50 border-yellow-200" := by
    have hDaily : dailyTotals [ceI, ceG] =
        [("2024-01-05", ⟨5, 5, [ceI, ceG]⟩)] := by
      simp [dailyTotals, bumpDay, dayAdd, ceI, ceG]
    rw [hDaily]
    simp [getDayColor, lookupDay]
  refine ⟨h1, h2, h3, h4, ?_⟩
  rw [h3, h4]
  decide

/-- C6 (amended): the cell's visual state is determined by the sign of
the day's net balance together with whether the day has any entries:
days with entries are green, red or yellow as the net balance is
positive, negative or zero, and days without entries are white. -/
theorem getDayColor_spec (entries : List Entry) (d : String) :
    getDayColor (dailyTotals entries) d =
      if (entries.filter (fun e => decide (e.date = d))).isEmpty then "bg-white"
      else if 0 < netBalanceOn entries d then "bg-green-50 border-green-200"
      else if netBalanceOn entries d < 0 then "bg-red-50 border-red-200"
      else "bg-yellow-50 border-yellow-200" := by
  by_cases h0 : (entries.filter (fun e => decide (e.date = d))).isEmpty
  · simp [getDayColor, dailyTotals_lookup_eq, h0]
  · simp [getDayColor, dailyTotals_lookup_eq, h0, netBalanceOn]

/-! ## Calendar grid -/

/-- Models `startOfWeek(d, { weekStartsOn: 1 })` on epoch-day indices with
day 0 a Monday: step back to the nearest Monday at or before `d`. -/
def startOfWeekMon (d : ℤ) : ℤ := d - d % 7

/-- Models `endOfWeek(d, { weekStartsOn: 1 })`: step forward to the nearest
Sunday at or after `d`. -/
def endOfWeekMon (d : ℤ) : ℤ := d + (6 - d % 7)

/-- Models `eachDayOfInterval({start, end})`: the list of days from `s` to `e`
inclusive. -/
def eachDayOfInterval (s e : ℤ) : List ℤ :=
  (List.range (e + 1 - s).toNat).map (fun i : ℕ => s + (i : ℤ))

/-- The calendar page `calendarDays` memo for the month starting at
epoch day `monthStart` and lasting `monthLen` days: all days from the
Monday of the month's first week to the Sunday of its last week. -/
def calendarDays (monthStart : ℤ) (monthLen : ℕ) : List ℤ :=
  eachDayOfInterval (startOfWeekMon monthStart)
    (endOfWeekMon (monthStart + monthLen - 1))

/-- C5: for every (non-empty) reference month, the calendar cell list
covers whole Monday-start weeks spanning the month: its length is a
multiple of 7 and every day of the month appears among the cells. -/
theorem calendarDays_spec (monthStart : ℤ) (monthLen : ℕ) (h : 0 < monthLen) :
    (calendarDays monthStart monthLen).length % 7 = 0 ∧
    ∀ d : ℤ, monthStart ≤ d → d < monthStart + monthLen →
      d ∈ calendarDays monthStart monthLen := by
  constructor
  · simp only [calendarDays, eachDayOfInterval, startOfWeekMon, endOfWeekMon,
      List.length_map, List.length_range]
    omega
  · intro d h1 h2
    simp only [calendarDays, eachDayOfInterval, startOfWeekMon, endOfWeekMon,
      List.mem_map, List.mem_range]
    refine ⟨(d - (monthStart - monthStart % 7)).toNat, ?_, ?_⟩ <;> omega

/-- C5 witness: the January-2024-shaped month starting at epoch day 2
with 31 days. -/
theorem calendarDays_spec_witness :
    (calendarDays 2 31).length % 7 = 0 ∧ (17 : ℤ) ∈ calendarDays 2 31 := by
  obtain ⟨h1, h2⟩ := calendarDays_spec 2 31 (by decide)
  exact ⟨h1, h2 17 (by decide) (by decide)⟩

/-! ## Analytics ratios -/

/-- The `Ratio Ingreso/Gasto` display of the analytics tab:
`totals.gastos > 0 ? (ingresos / gastos).toFixed(2) : "∞"` — the
division is modelled exactly and the `"∞"` sentinel as `none`. -/
def ratioIngresoGasto (t : Totals) : Option ℚ :=
  if t.gastos > 0 then some (t.ingresos / t.gastos) else none

/-- The `Tasa de ahorro` display of the analytics tab:
`totals.ingresos > 0 ? balance / ingresos * 100 : 0`. -/
def savingsRate (t : Totals) : ℚ :=
  if t.ingresos > 0 then t.balance / t.ingresos * 100 else 0

/-- C8: on the empty entry list every aggregate is zero or empty, the
income/expense ratio is displayed as the `"∞"` sentinel (`none`) rather
than computed, and the savings rate is zero. -/
theorem empty_entries_all_zero :
    totals [] = { gastos := 0, ingresos := 0, balance := 0 } ∧
    categoryTotals [] = ([], []) ∧
    dailyTotals [] = [] ∧
    dailyTotalsDash [] = [] ∧
    ratioIngresoGasto (totals []) = none ∧
    savingsRate (totals []) = 0 := by
  refine ⟨by simp [totals], rfl, rfl, rfl, ?_, ?_⟩
  · simp [ratioIngresoGasto, totals]
  · simp [savingsRate, totals]
